import Mathlib

/-
Shallow embedding of the document lifecycle state machine from
src/unnamed/part_002 (document.initial.ts).

The TypeScript program models a document with an author, mutable content
and a current lifecycle state (Draft, Moderation, Published, Archived).
Each state class carries no data of its own beyond its identity, so the
active state is embedded as an enumeration value.  Every public action
returns the updated document together with the single console.log line it
emits; the embedding is total, mirroring the fact that no handler throws.
-/

namespace DocumentLifecycle

/-- The UserRole union type from the source: Author, Moderator or Admin. -/
inductive UserRole where
  | Author
  | Moderator
  | Admin
deriving DecidableEq, Repr

/-- The DocumentStateType union: the four lifecycle states. -/
inductive DocumentStateType where
  | Draft
  | Moderation
  | Published
  | Archived
deriving DecidableEq, Repr

/-- The DocumentContext class: current state, content and immutable author. -/
structure DocumentContext where
  state : DocumentStateType
  content : String
  author : String
deriving DecidableEq, Repr

/-- The DocumentContext constructor: author set from the argument, state
initialised to a fresh DraftState, content initialised to the empty string. -/
def DocumentContext.create (author : String) : DocumentContext :=
  ⟨DocumentStateType.Draft, "", author⟩

/-- Per-state getName accessor, exactly the strings each class returns. -/
def getName : DocumentStateType → String
  | DocumentStateType.Draft => "Draft"
  | DocumentStateType.Moderation => "Moderation"
  | DocumentStateType.Published => "Published"
  | DocumentStateType.Archived => "Archived"

/-- What the JavaScript template literal interpolation of a state object
produces in printStatus.  The source writes the state instance itself into
the template; DocumentState defines no toString override, so the default
Object.prototype.toString yields the same string for every state. -/
def stateToString (_s : DocumentStateType) : String :=
  "[object Object]"

/-- The content preview computed by printStatus: the full content when its
length is at most 30, otherwise the first 30 characters followed by an
ellipsis. -/
def contentPreview (content : String) : String :=
  if content.length > 30 then content.take 30 ++ "..." else content

/-- printStatus: builds the status line the source logs.  The state is
interpolated as an object, not via getName. -/
def printStatus (doc : DocumentContext) : String :=
  "--- STATUS --- Document (Author: " ++ doc.author ++ "): State: "
    ++ stateToString doc.state ++ ", Content: \"" ++ contentPreview doc.content ++ "\""

/-- setContent, dispatched on the current state exactly as the per-state
handlers do: only DraftState updates content, and only for the original
author acting in the Author role; every other case reports and leaves the
document untouched. -/
def setContent (doc : DocumentContext) (content : String) (currentUser : UserRole)
    (currentUserName : String) : DocumentContext × String :=
  match doc.state with
  | DocumentStateType.Draft =>
      if currentUser = UserRole.Author ∧ currentUserName = doc.author then
        (⟨DocumentStateType.Draft, content, doc.author⟩, "✅ Content updated.")
      else
        (doc, "❌ Only the original author can edit content in Draft state.")
  | DocumentStateType.Moderation =>
      (doc, "Cannot set content in Moderation state.")
  | DocumentStateType.Published =>
      (doc, "Cannot set content in Published state.")
  | DocumentStateType.Archived =>
      (doc, "Cannot set content in Archived state.")

/-- requestReview: only DraftState accepts it, for the original author in
the Author role, transitioning to a fresh ModerationState. -/
def requestReview (doc : DocumentContext) (currentUser : UserRole)
    (currentUserName : String) : DocumentContext × String :=
  match doc.state with
  | DocumentStateType.Draft =>
      if currentUser = UserRole.Author ∧ currentUserName = doc.author then
        (⟨DocumentStateType.Moderation, doc.content, doc.author⟩,
          "Document submitted for review.")
      else
        (doc, "Only the author can request a review.")
  | DocumentStateType.Moderation =>
      (doc, "Cannot request review in Moderation state.")
  | DocumentStateType.Published =>
      (doc, "Cannot request review in Published state.")
  | DocumentStateType.Archived =>
      (doc, "Cannot request review in Archived state.")

/-- approve: only ModerationState accepts it, for a Moderator or an Admin,
transitioning to a fresh PublishedState. -/
def approve (doc : DocumentContext) (currentUser : UserRole)
    (currentUserName : String) : DocumentContext × String :=
  match doc.state with
  | DocumentStateType.Draft =>
      (doc, "Cannot approve from Draft state.")
  | DocumentStateType.Moderation =>
      if currentUser = UserRole.Moderator ∨ currentUser = UserRole.Admin then
        (⟨DocumentStateType.Published, doc.content, doc.author⟩, "Document approved.")
      else
        (doc, "Only moderators or admins can approve.")
  | DocumentStateType.Published =>
      (doc, "Cannot approve in Published state.")
  | DocumentStateType.Archived =>
      (doc, "Cannot approve in Archived state.")

/-- reject: only ModerationState accepts it, for an Admin only,
transitioning back to a fresh DraftState. -/
def reject (doc : DocumentContext) (currentUser : UserRole)
    (currentUserName : String) : DocumentContext × String :=
  match doc.state with
  | DocumentStateType.Draft =>
      (doc, "Cannot reject from Draft state.")
  | DocumentStateType.Moderation =>
      if currentUser = UserRole.Admin then
        (⟨DocumentStateType.Draft, doc.content, doc.author⟩, "Document rejected.")
      else
        (doc, "Only admins can reject.")
  | DocumentStateType.Published =>
      (doc, "Cannot reject in Published state.")
  | DocumentStateType.Archived =>
      (doc, "Cannot reject in Archived state.")

/-- unpublish: only PublishedState accepts it, for an Admin only,
transitioning back to a fresh DraftState. -/
def unpublish (doc : DocumentContext) (currentUser : UserRole)
    (currentUserName : String) : DocumentContext × String :=
  match doc.state with
  | DocumentStateType.Draft =>
      (doc, "Cannot unpublish from Draft state.")
  | DocumentStateType.Moderation =>
      (doc, "Cannot unpublish from Moderation state.")
  | DocumentStateType.Published =>
      if currentUser = UserRole.Admin then
        (⟨DocumentStateType.Draft, doc.content, doc.author⟩, "Document unpublished.")
      else
        (doc, "Only admins can unpublish.")
  | DocumentStateType.Archived =>
      (doc, "Cannot unpublish from Archived state.")

/-- archive: every one of the four state classes implements archive as an
unconditional denial; no handler ever transitions to ArchivedState. -/
def archive (doc : DocumentContext) (currentUser : UserRole)
    (currentUserName : String) : DocumentContext × String :=
  match doc.state with
  | DocumentStateType.Draft =>
      (doc, "Cannot archive from Draft state.")
  | DocumentStateType.Moderation =>
      (doc, "Cannot archive from Moderation state.")
  | DocumentStateType.Published =>
      (doc, "Cannot archive from Published state.")
  | DocumentStateType.Archived =>
      (doc, "Cannot archive from Archived state.")

/-- The six public actions of DocumentContext, as a sum type for stating
properties over arbitrary action sequences. -/
inductive Action where
  | setContent (text : String)
  | requestReview
  | approve
  | reject
  | unpublish
  | archive
deriving DecidableEq, Repr

/-- One public call: an action together with the acting role and name. -/
structure Call where
  action : Action
  role : UserRole
  name : String
deriving DecidableEq, Repr

/-- Uniform dispatch of one public call, as DocumentContext delegates each
action to the current state handler. -/
def applyAction (doc : DocumentContext) (a : Action) (role : UserRole)
    (name : String) : DocumentContext × String :=
  match a with
  | Action.setContent text => setContent doc text role name
  | Action.requestReview => requestReview doc role name
  | Action.approve => approve doc role name
  | Action.reject => reject doc role name
  | Action.unpublish => unpublish doc role name
  | Action.archive => archive doc role name

/-- Whether a call takes a success branch of its handler (content update or
transition), read off from the guards of the per-state handlers. -/
def succeedsB (doc : DocumentContext) (a : Action) (role : UserRole)
    (name : String) : Bool :=
  match doc.state, a with
  | DocumentStateType.Draft, Action.setContent _ =>
      decide (role = UserRole.Author ∧ name = doc.author)
  | DocumentStateType.Draft, Action.requestReview =>
      decide (role = UserRole.Author ∧ name = doc.author)
  | DocumentStateType.Moderation, Action.approve =>
      decide (role = UserRole.Moderator ∨ role = UserRole.Admin)
  | DocumentStateType.Moderation, Action.reject =>
      decide (role = UserRole.Admin)
  | DocumentStateType.Published, Action.unpublish =>
      decide (role = UserRole.Admin)
  | _, _ => false

/-- Running a finite sequence of public calls from a given document. -/
def runCalls (doc : DocumentContext) : List Call → DocumentContext
  | [] => doc
  | c :: rest => runCalls (applyAction doc c.action c.role c.name).1 rest

theorem applyAction_denied {doc : DocumentContext} {a : Action} {role : UserRole}
    {name : String} (h : succeedsB doc a role name = false) :
    (applyAction doc a role name).1 = doc := by
  obtain ⟨s, c, au⟩ := doc
  cases a <;> cases s <;>
    simp_all [applyAction, setContent, requestReview, approve, reject, unpublish,
      archive, succeedsB] <;>
    (try (split <;> simp_all))

theorem runCalls_denied {doc : DocumentContext} {calls : List Call}
    (h : ∀ c ∈ calls, succeedsB doc c.action c.role c.name = false) :
    runCalls doc calls = doc := by
  induction calls with
  | nil => rfl
  | cons c rest ih =>
      have h1 : (applyAction doc c.action c.role c.name).1 = doc :=
        applyAction_denied (h c (List.mem_cons_self c rest))
      simp only [runCalls, h1]
      exact ih (fun d hd => h d (List.mem_cons_of_mem c hd))

theorem applyAction_state_ne_archived {doc : DocumentContext} (a : Action)
    (role : UserRole) (name : String) (h : doc.state ≠ DocumentStateType.Archived) :
    (applyAction doc a role name).1.state ≠ DocumentStateType.Archived := by
  obtain ⟨s, c, au⟩ := doc
  cases a <;> cases s <;>
    simp_all [applyAction, setContent, requestReview, approve, reject, unpublish,
      archive] <;> split <;> simp

theorem runCalls_state_ne_archived {doc : DocumentContext}
    (h : doc.state ≠ DocumentStateType.Archived) (calls : List Call) :
    (runCalls doc calls).state ≠ DocumentStateType.Archived := by
  induction calls generalizing doc with
  | nil => simpa [runCalls] using h
  | cons c rest ih =>
      simp only [runCalls]
      exact ih (applyAction_state_ne_archived c.action c.role c.name h)

/-- C1: evaluated at the failing input: an Admin calling archive on a fresh
Draft document is denied; the document stays in Draft and the source logs the
Draft denial line, so archive never succeeds, contradicting the claim that it
succeeds from Draft, Moderation or Published for an Admin. -/
theorem archive_admin_on_draft_is_denied :
    (archive (DocumentContext.create "Alice") UserRole.Admin "Dave").1.state
        = DocumentStateType.Draft
    ∧ (archive (DocumentContext.create "Alice") UserRole.Admin "Dave").2
        = "Cannot archive from Draft state." := by
  exact ⟨rfl, rfl⟩

/-- C2: evaluated at the failing input: the status line of a fresh document
interpolates the state object with the default object stringification rather
than the Draft name, while getName on the same state returns the name the
claim says the snapshot reports. -/
theorem printStatus_interpolates_object_not_state_name :
    printStatus (DocumentContext.create "Alice")
      = "--- STATUS --- Document (Author: Alice): State: [object Object], Content: \"\""
    ∧ getName (DocumentContext.create "Alice").state = "Draft" := by
  exact ⟨rfl, rfl⟩

/-- C3: no call throws (every handler is total and returns a report line), a
denied call returns the document exactly as it was, and therefore no finite
sequence of denied calls changes currentState or content. -/
theorem denied_calls_never_change_the_document :
    (∀ doc a role name, succeedsB doc a role name = false →
        (applyAction doc a role name).1 = doc)
    ∧ ∀ doc calls, (∀ c ∈ calls, succeedsB doc c.action c.role c.name = false) →
        runCalls doc calls = doc :=
  ⟨fun _ _ _ _ h => applyAction_denied h, fun _ _ h => runCalls_denied h⟩

theorem denied_calls_never_change_the_document_witness :
    (applyAction (DocumentContext.create "Alice") Action.approve UserRole.Author "Bob").1
        = DocumentContext.create "Alice"
    ∧ runCalls (DocumentContext.create "Alice")
        [⟨Action.approve, UserRole.Author, "Bob"⟩,
         ⟨Action.unpublish, UserRole.Admin, "Dave"⟩,
         ⟨Action.setContent "edit", UserRole.Author, "Bob"⟩,
         ⟨Action.archive, UserRole.Admin, "Dave"⟩]
        = DocumentContext.create "Alice" :=
  ⟨denied_calls_never_change_the_document.1 _ _ _ _ (by decide),
   denied_calls_never_change_the_document.2 _ _ (by decide)⟩

/-- C4: setContent updates the content to the given text exactly when the
state is Draft, the role is Author and the name is the author of the
document; otherwise the document is returned unchanged with a denial line,
and the state is never changed by setContent. -/
theorem setContent_updates_iff_draft_author (doc : DocumentContext) (text : String)
    (role : UserRole) (name : String) :
    (setContent doc text role name).1 =
      (if doc.state = DocumentStateType.Draft ∧ role = UserRole.Author ∧ name = doc.author
        then ⟨DocumentStateType.Draft, text, doc.author⟩ else doc)
    ∧ ((setContent doc text role name).2 = "✅ Content updated." ↔
        doc.state = DocumentStateType.Draft ∧ role = UserRole.Author ∧ name = doc.author)
    ∧ (setContent doc text role name).1.state = doc.state := by
  obtain ⟨s, c, au⟩ := doc
  by_cases h1 : role = UserRole.Author
  · by_cases h2 : name = au
    · subst h1; subst h2; cases s <;> simp [setContent]
    · cases s <;> simp [setContent, h2]
  · cases s <;> simp [setContent, h1]

/-- C5: requestReview succeeds exactly when the state is Draft, the role is
Author and the name is the author, transitioning to Moderation with the
content and author untouched; otherwise the document is unchanged and a
denial line is reported. -/
theorem requestReview_iff_draft_author (doc : DocumentContext)
    (role : UserRole) (name : String) :
    (requestReview doc role name).1 =
      (if doc.state = DocumentStateType.Draft ∧ role = UserRole.Author ∧ name = doc.author
        then ⟨DocumentStateType.Moderation, doc.content, doc.author⟩ else doc)
    ∧ ((requestReview doc role name).2 = "Document submitted for review." ↔
        doc.state = DocumentStateType.Draft ∧ role = UserRole.Author ∧ name = doc.author) := by
  obtain ⟨s, c, au⟩ := doc
  by_cases h1 : role = UserRole.Author
  · by_cases h2 : name = au
    · subst h1; subst h2; cases s <;> simp [requestReview]
    · cases s <;> simp [requestReview, h2]
  · cases s <;> simp [requestReview, h1]

/-- C6: approve succeeds exactly when the state is Moderation and the role
is Moderator or Admin, whatever the acting name, transitioning to Published;
otherwise the document is unchanged. -/
theorem approve_iff_moderation_moderator_or_admin (doc : DocumentContext)
    (role : UserRole) (name : String) :
    (approve doc role name).1 =
      (if doc.state = DocumentStateType.Moderation ∧
          (role = UserRole.Moderator ∨ role = UserRole.Admin)
        then ⟨DocumentStateType.Published, doc.content, doc.author⟩ else doc)
    ∧ ((approve doc role name).2 = "Document approved." ↔
        doc.state = DocumentStateType.Moderation ∧
          (role = UserRole.Moderator ∨ role = UserRole.Admin)) := by
  obtain ⟨s, c, au⟩ := doc
  cases s <;> cases role <;> simp [approve]

/-- C7: reject succeeds exactly when the state is Moderation and the role is
Admin, whatever the acting name, transitioning back to Draft; in particular
a Moderator cannot reject, and otherwise the document is unchanged. -/
theorem reject_iff_moderation_admin (doc : DocumentContext)
    (role : UserRole) (name : String) :
    (reject doc role name).1 =
      (if doc.state = DocumentStateType.Moderation ∧ role = UserRole.Admin
        then ⟨DocumentStateType.Draft, doc.content, doc.author⟩ else doc)
    ∧ ((reject doc role name).2 = "Document rejected." ↔
        doc.state = DocumentStateType.Moderation ∧ role = UserRole.Admin) := by
  obtain ⟨s, c, au⟩ := doc
  cases s <;> cases role <;> simp [reject]

/-- C8: unpublish succeeds exactly when the state is Published and the role
is Admin, whatever the acting name, transitioning back to Draft; otherwise
the document is unchanged. -/
theorem unpublish_iff_published_admin (doc : DocumentContext)
    (role : UserRole) (name : String) :
    (unpublish doc role name).1 =
      (if doc.state = DocumentStateType.Published ∧ role = UserRole.Admin
        then ⟨DocumentStateType.Draft, doc.content, doc.author⟩ else doc)
    ∧ ((unpublish doc role name).2 = "Document unpublished." ↔
        doc.state = DocumentStateType.Published ∧ role = UserRole.Admin) := by
  obtain ⟨s, c, au⟩ := doc
  cases s <;> cases role <;> simp [unpublish]

/-- C9: a freshly constructed document is in Draft with empty content and
the given author, and a public call only ever changes the current state when
the call takes a success branch of its handler; the state slot always holds
one of the four states by construction of the embedding, mirroring that it is
never null. -/
theorem construction_and_transition_invariant (author : String) :
    (DocumentContext.create author).state = DocumentStateType.Draft
    ∧ (DocumentContext.create author).content = ""
    ∧ (DocumentContext.create author).author = author
    ∧ ∀ doc a role name,
        (applyAction doc a role name).1.state = doc.state
        ∨ succeedsB doc a role name = true := by
  refine ⟨rfl, rfl, rfl, fun doc a role name => ?_⟩
  by_cases h : succeedsB doc a role name = true
  · exact Or.inr h
  · exact Or.inl (congrArg DocumentContext.state
      (applyAction_denied (Bool.eq_false_iff.mpr h)))

/-- C10: starting from a freshly constructed document, no finite sequence of
public calls can reach the Archived state: after any sequence the state is
Draft, Moderation or Published, because no handler transitions to Archived. -/
theorem archived_unreachable_from_fresh_document (author : String)
    (calls : List Call) :
    (runCalls (DocumentContext.create author) calls).state = DocumentStateType.Draft
    ∨ (runCalls (DocumentContext.create author) calls).state = DocumentStateType.Moderation
    ∨ (runCalls (DocumentContext.create author) calls).state = DocumentStateType.Published := by
  have hD : (DocumentContext.create author).state ≠ DocumentStateType.Archived := by
    intro hc; cases hc
  have h := runCalls_state_ne_archived hD calls
  rcases hs : (runCalls (DocumentContext.create author) calls).state <;> simp_all

end DocumentLifecycle
